import Mathlib

/-!
# Verification of the gmpublisher workshop query façade

This file gives a shallow embedding of `src-tauri/src/workshop.rs` — the
synchronous Steam-workshop query façade with its item cache and callback-pump
wait loop — and proves or refutes the specification's claims about it.

Modelling conventions:
* `PublishedFileId` (a `u64` newtype) is a `Nat`; the code never does
  arithmetic on it, only equality, hashing and `to_string`.
* `f32 score` is carried as `Int`: the code only copies the score verbatim
  (and writes the literal `0.` in the stub constructor), so no floating-point
  behaviour is observable in any claim.
* The `HashMap` cache is modelled observationally as an association list where
  `insert` prepends and `lookup` takes the first match (last write wins).
* The SDK's `QueryResults` handle is modelled as a structure holding the data
  the callbacks read from it: `total_results()`, the result stream, and the
  `preview_url` / `statistic` accessors indexed by result position.
* The callback-driven wait loop (`while sync.lock().unwrap().is_none() {
  single.run_callbacks(); sleep(50ms) }`) is modelled operationally: the SDK
  fires the completion callback during one of the `run_callbacks` invocations,
  and each operation also produces the trace of lock / pump / sleep events its
  wait loop performs, so lock-scope claims can be settled.
* A Rust `panic!` (from `.unwrap()` on `None`) is modelled by an `Option`
  result: `none` means the operation panics instead of returning.
-/

/-- `steamworks::PublishedFileId`, a `u64` handle (`workshop.rs` uses only
equality, hashing and `id.0.to_string()` on it). -/
abbrev PublishedFileId := Nat

/-- The SDK-side error for a failed in-flight query (`steamworks::SteamError`).
The façade only moves it around, so it is modelled as an abstract code. -/
inductive SteamError where
  | code (n : Nat)
deriving DecidableEq, Repr

/-- The SDK-side error for a request that could not be constructed
(`steamworks::CreateQueryError`, a unit-like error type). -/
inductive CreateQueryError where
  | mk
deriving DecidableEq, Repr

/-- The fields of `steamworks::QueryResult` that `workshop.rs` reads. -/
structure QueryResult where
  publishedFileId : PublishedFileId
  title : String
  timeCreated : Nat
  timeUpdated : Nat
  score : Int
  tags : List String
deriving DecidableEq, Repr

/-- `workshop.rs` lines 29–40: the `WorkshopItem` record. -/
structure WorkshopItem where
  id : PublishedFileId
  title : String
  timeCreated : Nat
  timeUpdated : Nat
  score : Int
  tags : List String
  previewUrl : Option String
  subscriptions : Nat
  localFile : Option String
  searchTitle : String
deriving DecidableEq, Repr

/-- `impl From<QueryResult> for WorkshopItem` (`workshop.rs` lines 41–56):
full construction from an SDK query result; preview URL and subscriptions are
filled in later by the caller, `search_title` is the lower-cased title. -/
def WorkshopItem.fromQueryResult (r : QueryResult) : WorkshopItem where
  id := r.publishedFileId
  title := r.title
  timeCreated := r.timeCreated
  timeUpdated := r.timeUpdated
  score := r.score
  tags := r.tags
  previewUrl := none
  subscriptions := 0
  localFile := none
  searchTitle := r.title.toLower

/-- `impl From<PublishedFileId> for WorkshopItem` (`workshop.rs` lines 57–72):
the stub record built from a bare identifier (title = stringified id, all
numeric fields zero, empty tag set). -/
def WorkshopItem.fromId (id : PublishedFileId) : WorkshopItem where
  id := id
  title := toString id
  timeCreated := 0
  timeUpdated := 0
  score := 0
  tags := []
  previewUrl := none
  subscriptions := 0
  localFile := none
  searchTitle := toString id

/-- The item cache (`workshop.rs` line 24):
`HashMap<PublishedFileId, Option<WorkshopItem>>`, modelled observationally as
an association list; `lookup = none` is "never queried", `lookup = some none`
is the cached "known absent" marker. -/
structure Cache where
  entries : List (PublishedFileId × Option WorkshopItem)
deriving DecidableEq, Repr

/-- `HashMap::insert`: the new binding shadows any older one. -/
def Cache.insert (c : Cache) (k : PublishedFileId) (v : Option WorkshopItem) : Cache :=
  ⟨(k, v) :: c.entries⟩

/-- `HashMap::get`: first (most recent) binding for the key, if any. -/
def Cache.lookup (c : Cache) (k : PublishedFileId) : Option (Option WorkshopItem) :=
  go c.entries
where
  go : List (PublishedFileId × Option WorkshopItem) → Option (Option WorkshopItem)
    | [] => none
    | (k2, v) :: rest => if k2 = k then some v else go rest

def emptyCache : Cache := ⟨[]⟩

/-- What `get_item`'s callback reads from the `QueryResults` handle:
`total_results()`, `get(0)`, `preview_url(0)`, `statistic(0, Subscriptions)`. -/
structure SingleData where
  totalResults : Nat
  get0 : Option QueryResult
  previewUrl0 : Option String
  subscriptions0 : Option Nat
deriving DecidableEq, Repr

/-- `workshop.rs` lines 120–122 (single-item enrichment): convert the SDK
result and fill in `preview_url` and `subscriptions` (`unwrap_or(0)`). -/
def SingleData.enrich (data : SingleData) (r : QueryResult) : WorkshopItem :=
  { WorkshopItem.fromQueryResult r with
      previewUrl := data.previewUrl0
      subscriptions := data.subscriptions0.getD 0 }

/-- What `get_items`'s callback reads from the `QueryResults` handle:
`total_results()`, the `iter_maybe()` stream (one `Option<QueryResult>` per
stream position), and the position-indexed `preview_url` / `statistic`
accessors. -/
structure QueryData where
  totalResults : Nat
  entries : List (Option QueryResult)
  previewUrl : Nat → Option String
  statistic : Nat → Option Nat

/-- `workshop.rs` lines 166–168 (batch enrichment at stream position `i`). -/
def QueryData.enrich (data : QueryData) (i : Nat) (r : QueryResult) : WorkshopItem :=
  { WorkshopItem.fromQueryResult r with
      previewUrl := data.previewUrl i
      subscriptions := (data.statistic i).getD 0 }

/-- `workshop.rs` lines 161–174: the reconciliation map of `get_items`'s
callback. It walks the `iter_maybe()` stream (argument one) with the stream
index `i` and the parallel request-order cursor `ids_ref` (argument two,
what remains of the cloned `ids`):
* a present result advances the cursor by one and discards it
  (`ids_ref.nth(0);`), enriches the result, caches it as `Some`, emits it;
* an absent marker takes the next cursor element (`ids_ref.nth(0).unwrap()`)
  and emits the stub built from it — with **no** cache write; if the cursor
  is exhausted the `.unwrap()` panics, modelled as `none`. -/
def reconcileGo (data : QueryData) :
    List (Option QueryResult) → Nat → List PublishedFileId → Cache →
    Option (List WorkshopItem × Cache)
  | [], _, _, cache => some ([], cache)
  | some r :: rest, i, idsRef, cache =>
      let item := data.enrich i r
      match reconcileGo data rest (i + 1) (idsRef.drop 1) (cache.insert item.id (some item)) with
      | some (items, c) => some (item :: items, c)
      | none => none
  | none :: rest, i, idsRef, cache =>
      match idsRef with
      | [] => none
      | id :: idsTail =>
          match reconcileGo data rest (i + 1) idsTail cache with
          | some (items, c) => some (WorkshopItem.fromId id :: items, c)
          | none => none

/-- `workshop.rs` lines 152–182: the completion callback of `get_items`.
On an SDK error the slot gets the error verbatim and the cache is untouched;
on success the slot gets `(total_results, reconciled items)` and the cache
gets the writes performed during reconciliation. `none` models a panic. -/
def getItemsCallback (ids : List PublishedFileId) (cache : Cache)
    (result : Except SteamError QueryData) :
    Option (Cache × Except SteamError (Nat × List WorkshopItem)) :=
  match result with
  | .error e => some (cache, .error e)
  | .ok data =>
      match reconcileGo data data.entries 0 ids cache with
      | none => none
      | some (items, cache2) => some (cache2, .ok (data.totalResults, items))

/-- `workshop.rs` lines 110–132: the completion callback of `get_item`.
Zero total results: cache `None` for the requested id, slot gets `Ok(None)`.
Otherwise: enrich `get(0)` (the `.unwrap()` panics — `none` — if the SDK
reports a nonzero total but yields no result), cache it as `Some`, slot gets
`Ok(Some(item))`. SDK error: slot gets the error verbatim, cache untouched. -/
def getItemCallback (id : PublishedFileId) (cache : Cache)
    (result : Except SteamError SingleData) :
    Option (Cache × Except SteamError (Option WorkshopItem)) :=
  match result with
  | .error e => some (cache, .error e)
  | .ok data =>
      if data.totalResults = 0 then
        some (cache.insert id none, .ok none)
      else
        match data.get0 with
        | none => none
        | some r =>
            let item := data.enrich r
            some (cache.insert item.id (some item), .ok (some item))

/-- What `query`'s callback reads from the `QueryResults` handle: the `iter()`
stream (every position present) plus the indexed accessors. -/
structure BrowseData where
  totalResults : Nat
  entries : List QueryResult
  previewUrl : Nat → Option String
  statistic : Nat → Option Nat

/-- `workshop.rs` lines 218–220 (browse enrichment at stream position `i`). -/
def BrowseData.enrich (data : BrowseData) (i : Nat) (r : QueryResult) : WorkshopItem :=
  { WorkshopItem.fromQueryResult r with
      previewUrl := data.previewUrl i
      subscriptions := (data.statistic i).getD 0 }

/-- `workshop.rs` lines 217–223: the enumerated map of `query`'s callback —
enrich each result in stream order, cache it as `Some`, emit it. -/
def browseMap (data : BrowseData) :
    List QueryResult → Nat → Cache → List WorkshopItem × Cache
  | [], _, cache => ([], cache)
  | r :: rest, i, cache =>
      let item := data.enrich i r
      let step := browseMap data rest (i + 1) (cache.insert item.id (some item))
      (item :: step.1, step.2)

/-- `workshop.rs` lines 208–231: the completion callback of `query`. -/
def queryCallback (cache : Cache) (result : Except SteamError BrowseData) :
    Cache × Except SteamError (Nat × List WorkshopItem) :=
  match result with
  | .error e => (cache, .error e)
  | .ok data =>
      let step := browseMap data data.entries 0 cache
      (step.2, .ok (data.totalResults, step.1))

/-! ## The browse request (`query_user` parameters) -/

/-- `steamworks::UserList` (the variants relevant here). -/
inductive UserList where
  | Published
  | Subscribed
  | Favorited
deriving DecidableEq, Repr

/-- `steamworks::UGCType` (the variants relevant here). -/
inductive UGCType where
  | ItemsReadyToUse
  | Items
  | All
deriving DecidableEq, Repr

/-- `steamworks::UserListOrder` (the variants relevant here). -/
inductive UserListOrder where
  | LastUpdatedDesc
  | CreationOrderDesc
  | CreationOrderAsc
deriving DecidableEq, Repr

/-- `steamworks::AppIDs`. -/
inductive AppIDs where
  | consumer (id : Nat)
  | creator (id : Nat)
deriving DecidableEq, Repr

/-- `workshop.rs` line 7: `static APP_GMOD: AppId = AppId(4000)`. -/
def APP_GMOD : Nat := 4000

/-- The parameters a `query_user` request carries, including the excluded
tags accumulated by `exclude_tag`. -/
structure UserQueryRequest where
  accountId : Nat
  list : UserList
  ugcType : UGCType
  order : UserListOrder
  appIds : AppIDs
  page : Nat
  excludedTags : List String
deriving DecidableEq, Repr

/-- `workshop.rs` lines 201–208: the request `query` builds — the caller's
own published, ready-to-use items for the gmod app, last-updated-descending,
at the given page, with the `"dupe"` tag excluded. -/
def browseRequest (accountId : Nat) (page : Nat) : UserQueryRequest where
  accountId := accountId
  list := UserList.Published
  ugcType := UGCType.ItemsReadyToUse
  order := UserListOrder.LastUpdatedDesc
  appIds := AppIDs.consumer APP_GMOD
  page := page
  excludedTags := ["dupe"]

/-! ## The wait loop and the pump lock

All three operations share the same epilogue (`workshop.rs` lines 135–142,
185–192 and 234–241):

    let single = self.single.lock().unwrap();   // pump lock acquired
    while sync.lock().unwrap().is_none() {      // loop while slot empty
        single.run_callbacks();                 // drive the pump
        sleep(50ms);
    }
    let data = sync.lock().unwrap().take().unwrap();
    Ok(data)                                    // pump lock released at scope end

The SDK fires the registered completion callback during exactly one
`run_callbacks` invocation. We model a run by the drive schedule: a list with
one entry per `run_callbacks` call, `none` for a drive during which the
callback did not fire and `some v` for the drive that wrote `v` into the
slot. -/

/-- Observable events of an operation's wait-loop epilogue. -/
inductive Event where
  | acquirePumpLock
  | runCallbacks
  | sleep
  | releasePumpLock
deriving DecidableEq, Repr

/-- The slot (`sync`) after a sequence of drives: single-assignment,
first write wins, later drives never overwrite it. -/
def slotAfter {α : Type} (drives : List (Option α)) : Option α :=
  drives.foldl (fun slot fire => match slot with | some v => some v | none => fire) none

/-- The wait loop (`while sync.lock().unwrap().is_none() { run_callbacks();
sleep() }` followed by `take()`): runs one iteration per drive until the drive
that populates the slot, then returns the iteration count and the slot's
value. `none` means the schedule never fires and the loop spins forever. -/
def waitIters {α : Type} : List (Option α) → Option (Nat × α)
  | [] => none
  | some v :: _ => some (1, v)
  | none :: rest =>
      match waitIters rest with
      | some (n, v) => some (n + 1, v)
      | none => none

/-- The drive schedule of a request whose callback fires during drive number
`fireAfter` (counting from 0) with value `v`. -/
def driveSchedule {α : Type} (fireAfter : Nat) (v : α) : List (Option α) :=
  List.replicate fireAfter none ++ [some v]

/-- The event trace of the wait-loop epilogue when the loop runs `iters`
iterations: the pump lock is taken once before the loop (`let single =
self.single.lock().unwrap()`), each iteration drives the pump and sleeps, and
the `MutexGuard` is dropped only when the function returns. -/
def opTrace (iters : Nat) : List Event :=
  Event.acquirePumpLock ::
    ((List.replicate iters [Event.runCallbacks, Event.sleep]).flatten ++
      [Event.releasePumpLock])

/-- Checks a trace for the lock discipline the specification demands: between
any two consecutive `runCallbacks` events there is a `releasePumpLock` (so
another waiter could take the lock and interleave pump-driving). The flag
carries "a drive has been seen with no release since". -/
def relBetween : List Event → Bool → Bool
  | [], _ => true
  | Event.runCallbacks :: rest, sinceDrive =>
      if sinceDrive then false else relBetween rest true
  | Event.releasePumpLock :: rest, _ => relBetween rest false
  | Event.acquirePumpLock :: rest, b => relBetween rest b
  | Event.sleep :: rest, b => relBetween rest b

/-! ## The three operations, end to end

Each run takes the SDK's behaviour as parameters: the synchronous
request-construction outcome, the asynchronous result the completion callback
is invoked with, and the drive number during which it fires. `cancelled`
is the environment's per-iteration cancellation flag (the external
transaction registry of the specification); the wait loops of
`workshop.rs` (lines 136–139, 186–189, 235–238) test only
`sync.lock().unwrap().is_none()`, so the parameter is never consulted.
The result is `none` on a panic, otherwise the operation's return value,
the final cache, and the event trace of the epilogue. -/

/-- `workshop.rs` lines 104–143: `Workshop::get_item`. -/
def getItemRun (id : PublishedFileId) (cache : Cache)
    (construct : Option CreateQueryError)
    (sdkResult : Except SteamError SingleData)
    (fireAfter : Nat) (cancelled : Nat → Bool) :
    Option (Except CreateQueryError (Except SteamError (Option WorkshopItem)) ×
      Cache × List Event) :=
  match construct with
  | some e => some (.error e, cache, [])
  | none =>
      match getItemCallback id cache sdkResult with
      | none => none
      | some (cache2, v) =>
          match waitIters (driveSchedule fireAfter v) with
          | none => none
          | some (n, v2) => some (.ok v2, cache2, opTrace n)

/-- Modelled from the spec: construction of the batch details request
(`self.client.ugc().query_items(ids)?`, `workshop.rs` line 152) is performed
by the external SDK, whose code is not part of this repository; per the
specification it fails synchronously on an empty identifier set
(`fetch_many([])` is rejected with a request-construction error) and succeeds
otherwise. -/
def queryItemsConstruct (ids : List PublishedFileId) : Option CreateQueryError :=
  if ids.isEmpty then some CreateQueryError.mk else none

/-- `workshop.rs` lines 145–193: `Workshop::get_items`. -/
def getItemsRun (ids : List PublishedFileId) (cache : Cache)
    (sdkResult : Except SteamError QueryData)
    (fireAfter : Nat) (cancelled : Nat → Bool) :
    Option (Except CreateQueryError (Except SteamError (Nat × List WorkshopItem)) ×
      Cache × List Event) :=
  match queryItemsConstruct ids with
  | some e => some (.error e, cache, [])
  | none =>
      match getItemsCallback ids cache sdkResult with
      | none => none
      | some (cache2, v) =>
          match waitIters (driveSchedule fireAfter v) with
          | none => none
          | some (n, v2) => some (.ok v2, cache2, opTrace n)

/-- `workshop.rs` lines 195–242: `Workshop::query` (the browse operation). -/
def queryRun (accountId : Nat) (page : Nat) (cache : Cache)
    (construct : Option CreateQueryError)
    (sdkResult : Except SteamError BrowseData)
    (fireAfter : Nat) (cancelled : Nat → Bool) :
    Option (Except CreateQueryError (Except SteamError (Nat × List WorkshopItem)) ×
      Cache × List Event) :=
  match construct with
  | some e => some (.error e, cache, [])
  | none =>
      let step := queryCallback cache sdkResult
      match waitIters (driveSchedule fireAfter step.2) with
      | none => none
      | some (n, v2) => some (.ok v2, step.1, opTrace n)

/-! ## Helper lemmas: wait loop, slot and trace -/

theorem driveSchedule_succ {α : Type} (n : Nat) (v : α) :
    driveSchedule (n + 1) v = none :: driveSchedule n v := by
  simp [driveSchedule, List.replicate_succ]

theorem waitIters_driveSchedule {α : Type} (n : Nat) (v : α) :
    waitIters (driveSchedule n v) = some (n + 1, v) := by
  induction n with
  | zero => rfl
  | succ m ih => rw [driveSchedule_succ]; simp [waitIters, ih]

theorem slotAfter_driveSchedule {α : Type} (n : Nat) (v : α) :
    slotAfter (driveSchedule n v) = some v := by
  induction n with
  | zero => rfl
  | succ m ih =>
      rw [driveSchedule_succ]
      simpa [slotAfter] using ih

theorem driveSchedule_writes_once {α : Type} (n : Nat) (v : α) :
    (driveSchedule n v).filterMap id = [v] := by
  induction n with
  | zero => rfl
  | succ m ih => rw [driveSchedule_succ]; simpa using ih

theorem loopEvents_succ (n : Nat) :
    (List.replicate (n + 1) [Event.runCallbacks, Event.sleep]).flatten =
      Event.runCallbacks :: Event.sleep ::
        (List.replicate n [Event.runCallbacks, Event.sleep]).flatten := by
  simp [List.replicate_succ]

theorem opTrace_head (n : Nat) : (opTrace n).head? = some Event.acquirePumpLock := rfl

theorem opTrace_last (n : Nat) : (opTrace n).getLast? = some Event.releasePumpLock := by
  have h : opTrace n = (Event.acquirePumpLock ::
      (List.replicate n [Event.runCallbacks, Event.sleep]).flatten) ++
        [Event.releasePumpLock] := rfl
  rw [h, List.getLast?_concat]

theorem opTrace_count_acquire (n : Nat) :
    (opTrace n).count Event.acquirePumpLock = 1 := by
  induction n with
  | zero => rfl
  | succ m ih =>
      simp only [opTrace, loopEvents_succ, List.cons_append, List.count_cons] at ih ⊢
      simpa using ih

theorem opTrace_count_release (n : Nat) :
    (opTrace n).count Event.releasePumpLock = 1 := by
  induction n with
  | zero => rfl
  | succ m ih =>
      simp only [opTrace, loopEvents_succ, List.cons_append, List.count_cons] at ih ⊢
      simpa using ih

theorem opTrace_count_run (n : Nat) :
    (opTrace n).count Event.runCallbacks = n := by
  induction n with
  | zero => rfl
  | succ m ih =>
      simp [opTrace, loopEvents_succ, List.cons_append, List.count_cons] at ih ⊢
      omega

theorem relBetween_opTrace_two (n : Nat) (h : 2 ≤ n) :
    relBetween (opTrace n) false = false := by
  obtain ⟨m, rfl⟩ : ∃ m, n = m + 2 := ⟨n - 2, by omega⟩
  simp [opTrace, loopEvents_succ, List.cons_append, relBetween]

/-! ## Helper lemmas: cache and enrichment -/

theorem Cache.lookup_insert (c : Cache) (k2 k : PublishedFileId) (v : Option WorkshopItem) :
    Cache.lookup (Cache.insert c k2 v) k = if k2 = k then some v else Cache.lookup c k := rfl

theorem QueryData.enrich_id (data : QueryData) (i : Nat) (r : QueryResult) :
    (data.enrich i r).id = r.publishedFileId := rfl

theorem BrowseData.browse_enrich_id (data : BrowseData) (i : Nat) (r : QueryResult) :
    (data.enrich i r).id = r.publishedFileId := rfl

theorem BrowseData.enrich_tags (data : BrowseData) (i : Nat) (r : QueryResult) :
    (data.enrich i r).tags = r.tags := rfl

theorem drop_one_getElem {α : Type} (l : List α) (j : Nat) :
    (l.drop 1)[j]? = l[j + 1]? := by
  cases l with
  | nil => rfl
  | cons a t => simp

/-! ## Helper lemmas: reconciliation (`get_items`) -/

theorem reconcileGo_cons_some (data : QueryData) (r : QueryResult)
    (rest : List (Option QueryResult)) (i : Nat) (idsRef : List PublishedFileId)
    (cache : Cache) (items : List WorkshopItem) (cache2 : Cache)
    (h : reconcileGo data (some r :: rest) i idsRef cache = some (items, cache2)) :
    ∃ its, reconcileGo data rest (i + 1) (idsRef.drop 1)
        (cache.insert (data.enrich i r).id (some (data.enrich i r))) = some (its, cache2) ∧
      items = data.enrich i r :: its := by
  simp only [reconcileGo] at h
  cases hrec : reconcileGo data rest (i + 1) (idsRef.drop 1)
      (cache.insert (data.enrich i r).id (some (data.enrich i r))) with
  | none => rw [hrec] at h; simp at h
  | some p =>
      cases p with
      | mk its c =>
          rw [hrec] at h
          simp only [Option.some.injEq, Prod.mk.injEq] at h
          obtain ⟨h1, h2⟩ := h
          subst h2
          exact ⟨its, rfl, h1.symm⟩

theorem reconcileGo_cons_none (data : QueryData)
    (rest : List (Option QueryResult)) (i : Nat) (idsRef : List PublishedFileId)
    (cache : Cache) (items : List WorkshopItem) (cache2 : Cache)
    (h : reconcileGo data (none :: rest) i idsRef cache = some (items, cache2)) :
    ∃ id idsTail its, idsRef = id :: idsTail ∧
      reconcileGo data rest (i + 1) idsTail cache = some (its, cache2) ∧
      items = WorkshopItem.fromId id :: its := by
  cases idsRef with
  | nil => simp [reconcileGo] at h
  | cons id idsTail =>
      simp only [reconcileGo] at h
      cases hrec : reconcileGo data rest (i + 1) idsTail cache with
      | none => rw [hrec] at h; simp at h
      | some p =>
          cases p with
          | mk its c =>
              rw [hrec] at h
              simp only [Option.some.injEq, Prod.mk.injEq] at h
              obtain ⟨h1, h2⟩ := h
              subst h2
              exact ⟨id, idsTail, its, rfl, hrec, h1.symm⟩

theorem reconcileGo_isSome (data : QueryData) :
    ∀ (entries : List (Option QueryResult)) (i : Nat) (idsRef : List PublishedFileId)
      (cache : Cache), entries.length ≤ idsRef.length →
      (reconcileGo data entries i idsRef cache).isSome = true := by
  intro entries
  induction entries with
  | nil => intro i idsRef cache _; rfl
  | cons x rest ih =>
      intro i idsRef cache h
      cases x with
      | some r =>
          have hlen : rest.length ≤ (idsRef.drop 1).length := by
            simp only [List.length_cons] at h
            simp only [List.length_drop]
            omega
          have h2 := ih (i + 1) (idsRef.drop 1)
            (cache.insert (data.enrich i r).id (some (data.enrich i r))) hlen
          simp only [reconcileGo]
          cases hrec : reconcileGo data rest (i + 1) (idsRef.drop 1)
              (cache.insert (data.enrich i r).id (some (data.enrich i r))) with
          | none => rw [hrec] at h2; simp at h2
          | some p => cases p; simp
      | none =>
          cases idsRef with
          | nil => simp at h
          | cons id idsTail =>
              have hlen : rest.length ≤ idsTail.length := by
                simp only [List.length_cons] at h; omega
              have h2 := ih (i + 1) idsTail cache hlen
              simp only [reconcileGo]
              cases hrec : reconcileGo data rest (i + 1) idsTail cache with
              | none => rw [hrec] at h2; simp at h2
              | some p => cases p; simp

theorem reconcileGo_length (data : QueryData) :
    ∀ (entries : List (Option QueryResult)) (i : Nat) (idsRef : List PublishedFileId)
      (cache : Cache) (items : List WorkshopItem) (cache2 : Cache),
      reconcileGo data entries i idsRef cache = some (items, cache2) →
      items.length = entries.length := by
  intro entries
  induction entries with
  | nil =>
      intro i idsRef cache items cache2 h
      simp only [reconcileGo, Option.some.injEq, Prod.mk.injEq] at h
      simp [← h.1]
  | cons x rest ih =>
      intro i idsRef cache items cache2 h
      cases x with
      | some r =>
          obtain ⟨its, hrec, hit⟩ := reconcileGo_cons_some data r rest i idsRef cache items cache2 h
          subst hit
          simp [ih _ _ _ _ _ hrec]
      | none =>
          obtain ⟨id, idsTail, its, _, hrec, hit⟩ :=
            reconcileGo_cons_none data rest i idsRef cache items cache2 h
          subst hit
          simp [ih _ _ _ _ _ hrec]

theorem reconcileGo_get (data : QueryData) :
    ∀ (entries : List (Option QueryResult)) (i : Nat) (idsRef : List PublishedFileId)
      (cache : Cache) (items : List WorkshopItem) (cache2 : Cache),
      reconcileGo data entries i idsRef cache = some (items, cache2) →
      ∀ j : Nat,
        (∀ r, entries[j]? = some (some r) → items[j]? = some (data.enrich (i + j) r)) ∧
        (entries[j]? = some none → items[j]? = (idsRef[j]?).map WorkshopItem.fromId) := by
  intro entries
  induction entries with
  | nil =>
      intro i idsRef cache items cache2 _ j
      constructor
      · intro r hr; simp at hr
      · intro hr; simp at hr
  | cons x rest ih =>
      intro i idsRef cache items cache2 h j
      cases x with
      | some r0 =>
          obtain ⟨its, hrec, hit⟩ :=
            reconcileGo_cons_some data r0 rest i idsRef cache items cache2 h
          subst hit
          cases j with
          | zero =>
              constructor
              · intro r hr
                simp only [List.getElem?_cons_zero, Option.some.injEq] at hr
                subst hr
                simp
              · intro hr
                simp at hr
          | succ m =>
              have hm := ih (i + 1) (idsRef.drop 1) _ its cache2 hrec m
              constructor
              · intro r hr
                have h1 := hm.1 r (by simpa using hr)
                have harith : i + 1 + m = i + (m + 1) := by omega
                rw [harith] at h1
                simpa using h1
              · intro hr
                have h2 := hm.2 (by simpa using hr)
                rw [drop_one_getElem] at h2
                simpa using h2
      | none =>
          obtain ⟨id, idsTail, its, hids, hrec, hit⟩ :=
            reconcileGo_cons_none data rest i idsRef cache items cache2 h
          subst hit; subst hids
          cases j with
          | zero =>
              constructor
              · intro r hr; simp at hr
              · intro _; simp
          | succ m =>
              have hm := ih (i + 1) idsTail cache its cache2 hrec m
              constructor
              · intro r hr
                have h1 := hm.1 r (by simpa using hr)
                have harith : i + 1 + m = i + (m + 1) := by omega
                rw [harith] at h1
                simpa using h1
              · intro hr
                have h2 := hm.2 (by simpa using hr)
                simpa using h2

theorem reconcileGo_cache_mono (data : QueryData) :
    ∀ (entries : List (Option QueryResult)) (i : Nat) (idsRef : List PublishedFileId)
      (cache : Cache) (items : List WorkshopItem) (cache2 : Cache),
      reconcileGo data entries i idsRef cache = some (items, cache2) →
      ∀ k, Cache.lookup cache2 k = Cache.lookup cache k ∨
        ∃ item, Cache.lookup cache2 k = some (some item) := by
  intro entries
  induction entries with
  | nil =>
      intro i idsRef cache items cache2 h k
      have h2 : cache = cache2 := congrArg Prod.snd (Option.some.inj h)
      rw [← h2]
      exact Or.inl rfl
  | cons x rest ih =>
      intro i idsRef cache items cache2 h k
      cases x with
      | some r0 =>
          obtain ⟨its, hrec, _⟩ :=
            reconcileGo_cons_some data r0 rest i idsRef cache items cache2 h
          rcases ih (i + 1) (idsRef.drop 1) _ its cache2 hrec k with hsame | hsome
          · rw [hsame, Cache.lookup_insert]
            by_cases hk : (data.enrich i r0).id = k
            · exact Or.inr ⟨data.enrich i r0, by simp [hk]⟩
            · exact Or.inl (by simp [hk])
          · exact Or.inr hsome
      | none =>
          obtain ⟨id, idsTail, its, _, hrec, _⟩ :=
            reconcileGo_cons_none data rest i idsRef cache items cache2 h
          exact ih (i + 1) idsTail cache its cache2 hrec k

theorem reconcileGo_cache_present (data : QueryData) :
    ∀ (entries : List (Option QueryResult)) (i : Nat) (idsRef : List PublishedFileId)
      (cache : Cache) (items : List WorkshopItem) (cache2 : Cache),
      reconcileGo data entries i idsRef cache = some (items, cache2) →
      ∀ (j : Nat) (r : QueryResult), entries[j]? = some (some r) →
        ∃ item, Cache.lookup cache2 r.publishedFileId = some (some item) := by
  intro entries
  induction entries with
  | nil =>
      intro i idsRef cache items cache2 _ j r hr
      simp at hr
  | cons x rest ih =>
      intro i idsRef cache items cache2 h j r hr
      cases x with
      | some r0 =>
          obtain ⟨its, hrec, _⟩ :=
            reconcileGo_cons_some data r0 rest i idsRef cache items cache2 h
          cases j with
          | zero =>
              simp only [List.getElem?_cons_zero, Option.some.injEq] at hr
              subst hr
              rcases reconcileGo_cache_mono data rest (i + 1) (idsRef.drop 1) _ its cache2
                  hrec r0.publishedFileId with hsame | hsome
              · refine ⟨data.enrich i r0, ?_⟩
                rw [hsame, Cache.lookup_insert]
                simp [QueryData.enrich_id]
              · exact hsome
          | succ m =>
              exact ih (i + 1) (idsRef.drop 1) _ its cache2 hrec m r (by simpa using hr)
      | none =>
          obtain ⟨id, idsTail, its, _, hrec, _⟩ :=
            reconcileGo_cons_none data rest i idsRef cache items cache2 h
          cases j with
          | zero => simp at hr
          | succ m =>
              exact ih (i + 1) idsTail cache its cache2 hrec m r (by simpa using hr)

theorem reconcileGo_cache_untouched (data : QueryData) :
    ∀ (entries : List (Option QueryResult)) (i : Nat) (idsRef : List PublishedFileId)
      (cache : Cache) (items : List WorkshopItem) (cache2 : Cache),
      reconcileGo data entries i idsRef cache = some (items, cache2) →
      ∀ k, (∀ (j : Nat) (r : QueryResult), entries[j]? = some (some r) → r.publishedFileId ≠ k) →
        Cache.lookup cache2 k = Cache.lookup cache k := by
  intro entries
  induction entries with
  | nil =>
      intro i idsRef cache items cache2 h k _
      have h2 : cache = cache2 := congrArg Prod.snd (Option.some.inj h)
      rw [← h2]
  | cons x rest ih =>
      intro i idsRef cache items cache2 h k hne
      cases x with
      | some r0 =>
          obtain ⟨its, hrec, _⟩ :=
            reconcileGo_cons_some data r0 rest i idsRef cache items cache2 h
          have hrest := ih (i + 1) (idsRef.drop 1) _ its cache2 hrec k
            (fun j r hr => hne (j + 1) r (by simpa using hr))
          have h0 : r0.publishedFileId ≠ k := hne 0 r0 (by simp)
          rw [hrest, Cache.lookup_insert]
          simp only [QueryData.enrich_id, h0, if_false]
      | none =>
          obtain ⟨id, idsTail, its, _, hrec, _⟩ :=
            reconcileGo_cons_none data rest i idsRef cache items cache2 h
          exact ih (i + 1) idsTail cache its cache2 hrec k
            (fun j r hr => hne (j + 1) r (by simpa using hr))

/-! ## Helper lemmas: the browse map (`query`) -/

theorem browseMap_cons (data : BrowseData) (r : QueryResult)
    (rest : List QueryResult) (i : Nat) (cache : Cache) :
    browseMap data (r :: rest) i cache =
      (data.enrich i r ::
        (browseMap data rest (i + 1)
          (cache.insert (data.enrich i r).id (some (data.enrich i r)))).1,
       (browseMap data rest (i + 1)
          (cache.insert (data.enrich i r).id (some (data.enrich i r)))).2) := rfl

theorem browseMap_length (data : BrowseData) :
    ∀ (entries : List QueryResult) (i : Nat) (cache : Cache),
      (browseMap data entries i cache).1.length = entries.length := by
  intro entries
  induction entries with
  | nil => intro i cache; rfl
  | cons r rest ih =>
      intro i cache
      rw [browseMap_cons]
      simp [ih]

theorem browseMap_get (data : BrowseData) :
    ∀ (entries : List QueryResult) (i : Nat) (cache : Cache) (j : Nat) (r : QueryResult),
      entries[j]? = some r →
      (browseMap data entries i cache).1[j]? = some (data.enrich (i + j) r) := by
  intro entries
  induction entries with
  | nil => intro i cache j r hr; simp at hr
  | cons r0 rest ih =>
      intro i cache j r hr
      rw [browseMap_cons]
      cases j with
      | zero =>
          simp only [List.getElem?_cons_zero, Option.some.injEq] at hr
          subst hr
          simp
      | succ m =>
          have h1 := ih (i + 1)
            (cache.insert (data.enrich i r0).id (some (data.enrich i r0))) m r
            (by simpa using hr)
          have harith : i + 1 + m = i + (m + 1) := by omega
          rw [harith] at h1
          simpa using h1

theorem browseMap_cache_mono (data : BrowseData) :
    ∀ (entries : List QueryResult) (i : Nat) (cache : Cache) (k : PublishedFileId),
      Cache.lookup (browseMap data entries i cache).2 k = Cache.lookup cache k ∨
      ∃ item, Cache.lookup (browseMap data entries i cache).2 k = some (some item) := by
  intro entries
  induction entries with
  | nil => intro i cache k; exact Or.inl rfl
  | cons r0 rest ih =>
      intro i cache k
      rw [browseMap_cons]
      rcases ih (i + 1)
          (cache.insert (data.enrich i r0).id (some (data.enrich i r0))) k with hsame | hsome
      · rw [hsame, Cache.lookup_insert]
        by_cases hk : (data.enrich i r0).id = k
        · exact Or.inr ⟨data.enrich i r0, by simp [hk]⟩
        · exact Or.inl (by simp [hk])
      · exact Or.inr hsome

theorem browseMap_cached (data : BrowseData) :
    ∀ (entries : List QueryResult) (i : Nat) (cache : Cache) (item : WorkshopItem),
      item ∈ (browseMap data entries i cache).1 →
      ∃ it2, Cache.lookup (browseMap data entries i cache).2 item.id = some (some it2) := by
  intro entries
  induction entries with
  | nil => intro i cache item hmem; simp [browseMap] at hmem
  | cons r0 rest ih =>
      intro i cache item hmem
      rw [browseMap_cons] at hmem ⊢
      simp only [List.mem_cons] at hmem
      rcases hmem with heq | hmem
      · subst heq
        rcases browseMap_cache_mono data rest (i + 1)
            (cache.insert (data.enrich i r0).id (some (data.enrich i r0)))
            (data.enrich i r0).id with hsame | hsome
        · exact ⟨data.enrich i r0, by rw [hsame, Cache.lookup_insert]; simp⟩
        · exact hsome
      · exact ih (i + 1) _ item hmem

theorem browseMap_tags (data : BrowseData) (t : String) :
    ∀ (entries : List QueryResult) (i : Nat) (cache : Cache),
      (∀ r ∈ entries, t ∉ r.tags) →
      ∀ item ∈ (browseMap data entries i cache).1, t ∉ item.tags := by
  intro entries
  induction entries with
  | nil => intro i cache _ item hmem; simp [browseMap] at hmem
  | cons r0 rest ih =>
      intro i cache hcl item hmem
      rw [browseMap_cons] at hmem
      simp only [List.mem_cons] at hmem
      rcases hmem with heq | hmem
      · subst heq
        rw [BrowseData.enrich_tags]
        exact hcl r0 (List.mem_cons_self r0 rest)
      · exact ih (i + 1) _ (fun r hr => hcl r (List.mem_cons_of_mem r0 hr)) item hmem

/-! ## Concrete fixtures for witnesses and counterexamples -/

/-- A present SDK result for identifier 10. -/
def exResultA : QueryResult := ⟨10, "alpha", 1, 2, 3, ["maps"]⟩

/-- A present SDK result for identifier 30. -/
def exResultC : QueryResult := ⟨30, "gamma", 4, 5, 6, ["weapons"]⟩

/-- A batch response for the request `[10, 20, 30]` in which the service
reports the middle identifier absent. -/
def exQueryData : QueryData := ⟨3, [some exResultA, none, some exResultC], fun _ => none, fun _ => none⟩

/-- A present SDK result for identifier 5. -/
def exResult5 : QueryResult := ⟨5, "thing", 7, 8, 9, ["maps"]⟩

/-- A successful single-item response resolving identifier 5. -/
def exSingleData : SingleData := ⟨1, some exResult5, some "p.png", some 42⟩

/-- A single-item response with zero matching results. -/
def exAbsentData : SingleData := ⟨0, none, none, none⟩

/-- A batch response carrying more absent markers than there are requested
identifiers (two absent markers against a one-element request). -/
def overflowData : QueryData := ⟨2, [none, none], fun _ => none, fun _ => none⟩

/-- A browse response with two clean results (no `"dupe"` tag anywhere). -/
def exBrowseData : BrowseData := ⟨2, [exResultA, exResultC], fun _ => none, fun _ => none⟩

/-! ## The claims -/

/-- C1: for every batch `get_items` call whose SDK response succeeds (under
the SDK response contract that the `iter_maybe` stream carries exactly one
entry — present or absent — per requested identifier), the returned sequence
has the same length and the same order as the requested identifier sequence:
each position holding a present SDK result yields that result enriched with
its preview URL and subscription count, and each position holding an absent
marker yields the stub record built from the identifier at that same position
of the original request. -/
theorem C1_getItems_request_order (ids : List PublishedFileId) (cache : Cache)
    (data : QueryData) (fireAfter : Nat) (cancelled : Nat → Bool)
    (hlen : data.entries.length = ids.length) (hne : ids ≠ []) :
    ∃ items cache2,
      getItemsRun ids cache (.ok data) fireAfter cancelled =
        some (.ok (.ok (data.totalResults, items)), cache2, opTrace (fireAfter + 1)) ∧
      items.length = ids.length ∧
      ∀ j : Nat,
        (∀ r : QueryResult, data.entries[j]? = some (some r) →
          items[j]? = some (data.enrich j r)) ∧
        (data.entries[j]? = some none →
          items[j]? = (ids[j]?).map WorkshopItem.fromId) := by
  have hsome := reconcileGo_isSome data data.entries 0 ids cache (le_of_eq hlen)
  cases hrec : reconcileGo data data.entries 0 ids cache with
  | none => rw [hrec] at hsome; simp at hsome
  | some p =>
      obtain ⟨items, cache2⟩ := p
      have hconstruct : queryItemsConstruct ids = none := by
        cases ids with
        | nil => exact absurd rfl hne
        | cons a l => rfl
      refine ⟨items, cache2, ?_, ?_, ?_⟩
      · simp only [getItemsRun, hconstruct, getItemsCallback, hrec, waitIters_driveSchedule]
      · rw [reconcileGo_length data data.entries 0 ids cache items cache2 hrec, hlen]
      · intro j
        have hj := reconcileGo_get data data.entries 0 ids cache items cache2 hrec j
        simpa using hj

/-- Witness for C1 on the batch `[10, 20, 30]` with the middle id absent. -/
theorem C1_witness :
    ∃ items cache2,
      getItemsRun [10, 20, 30] emptyCache (.ok exQueryData) 0 (fun _ => false) =
        some (.ok (.ok (exQueryData.totalResults, items)), cache2, opTrace 1) ∧
      items.length = ([10, 20, 30] : List PublishedFileId).length ∧
      ∀ j : Nat,
        (∀ r : QueryResult, exQueryData.entries[j]? = some (some r) →
          items[j]? = some (exQueryData.enrich j r)) ∧
        (exQueryData.entries[j]? = some none →
          items[j]? = (([10, 20, 30] : List PublishedFileId)[j]?).map WorkshopItem.fromId) :=
  C1_getItems_request_order [10, 20, 30] emptyCache exQueryData 0 (fun _ => false)
    (by rfl) (by simp)

/-- C2 is false on the code: in the successful batch `[10, 20, 30]` where the
service reports `20` absent, the reconciliation completes (first conjunct) but
the cache afterwards has NO entry for `20` at all (`lookup = none`, "never
queried") — the absent branch of `get_items` (`workshop.rs` line 172) builds
the stub without any cache insertion, so the claimed "known absent" marker
(`lookup = some none`) is never written. -/
theorem C2_counterexample :
    (getItemsCallback [10, 20, 30] emptyCache (.ok exQueryData)).isSome = true ∧
    (getItemsCallback [10, 20, 30] emptyCache (.ok exQueryData)).map
      (fun p => Cache.lookup p.1 20) = some none := by
  exact ⟨rfl, rfl⟩

/-- C2 (amended): after a successful `get_items` reconciliation, the cache
contains `Some(record)` for every identifier the service resolved; identifiers
the service reported absent are NOT written to the cache — at every key that
is not the id of some present result, the cache is exactly as before the call
(in particular no `None` "known absent" marker is inserted by `get_items`). -/
theorem C2_amended_getItems_cache (ids : List PublishedFileId) (cache cache2 : Cache)
    (data : QueryData) (v : Except SteamError (Nat × List WorkshopItem))
    (hcall : getItemsCallback ids cache (.ok data) = some (cache2, v)) :
    (∀ (j : Nat) (r : QueryResult), data.entries[j]? = some (some r) →
      ∃ item, Cache.lookup cache2 r.publishedFileId = some (some item)) ∧
    (∀ k, (∀ (j : Nat) (r : QueryResult), data.entries[j]? = some (some r) →
        r.publishedFileId ≠ k) →
      Cache.lookup cache2 k = Cache.lookup cache k) := by
  simp only [getItemsCallback] at hcall
  cases hrec : reconcileGo data data.entries 0 ids cache with
  | none => rw [hrec] at hcall; simp at hcall
  | some p =>
      obtain ⟨items, c⟩ := p
      rw [hrec] at hcall
      simp only [Option.some.injEq, Prod.mk.injEq] at hcall
      obtain ⟨hc, _⟩ := hcall
      subst hc
      constructor
      · intro j r hr
        exact reconcileGo_cache_present data data.entries 0 ids cache items _ hrec j r hr
      · intro k hk
        exact reconcileGo_cache_untouched data data.entries 0 ids cache items _ hrec k hk

/-- Witness for the amended C2 on the batch `[10, 20, 30]`. -/
theorem C2_amended_witness :
    (∀ (j : Nat) (r : QueryResult), exQueryData.entries[j]? = some (some r) →
      ∃ item, Cache.lookup
        (Cache.insert (Cache.insert emptyCache 10 (some (exQueryData.enrich 0 exResultA)))
          30 (some (exQueryData.enrich 2 exResultC))) r.publishedFileId = some (some item)) ∧
    (∀ k, (∀ (j : Nat) (r : QueryResult), exQueryData.entries[j]? = some (some r) →
        r.publishedFileId ≠ k) →
      Cache.lookup
        (Cache.insert (Cache.insert emptyCache 10 (some (exQueryData.enrich 0 exResultA)))
          30 (some (exQueryData.enrich 2 exResultC))) k = Cache.lookup emptyCache k) :=
  C2_amended_getItems_cache [10, 20, 30] emptyCache _ _
    (.ok (3, [exQueryData.enrich 0 exResultA, WorkshopItem.fromId 20,
      exQueryData.enrich 2 exResultC])) rfl

/-- C3 is false on the code: with the external cancellation flag raised at
every iteration of the wait (`fun _ => true`), `get_item` still waits out the
schedule and returns the resolved data — there is no cancelled outcome in its
result type and the loop (`workshop.rs` lines 136–139) tests only whether the
pending-result slot is populated, never any cancellation flag. -/
theorem C3_counterexample :
    getItemRun 5 emptyCache none (.ok exSingleData) 2 (fun _ => true) =
      some (.ok (.ok (some (exSingleData.enrich exResult5))),
        Cache.insert emptyCache 5 (some (exSingleData.enrich exResult5)),
        opTrace 3) := rfl

/-- C3 (amended): the wait loop of `get_item` checks only whether the
pending-result slot is populated; it never consults any cancellation flag.
The operation's outcome is therefore identical under every cancellation-flag
history, and whenever the completion callback fires the operation returns the
callback's value — no distinct cancelled outcome exists or is ever returned,
and an in-flight query cannot be abandoned. -/
theorem C3_amended_no_cancellation (itemId : PublishedFileId) (cache : Cache)
    (construct : Option CreateQueryError) (sdkResult : Except SteamError SingleData)
    (fireAfter : Nat) (flags1 flags2 : Nat → Bool) :
    getItemRun itemId cache construct sdkResult fireAfter flags1 =
      getItemRun itemId cache construct sdkResult fireAfter flags2 ∧
    (∀ cache2 v, getItemCallback itemId cache sdkResult = some (cache2, v) →
      getItemRun itemId cache none sdkResult fireAfter flags1 =
        some (.ok v, cache2, opTrace (fireAfter + 1))) := by
  constructor
  · rfl
  · intro cache2 v hcb
    simp only [getItemRun, hcb, waitIters_driveSchedule]

/-- Witness for the amended C3 at a concrete input. -/
theorem C3_amended_witness :
    getItemRun 5 emptyCache none (.ok exSingleData) 1 (fun _ => true) =
      getItemRun 5 emptyCache none (.ok exSingleData) 1 (fun _ => false) ∧
    getItemRun 5 emptyCache none (.ok exSingleData) 1 (fun _ => true) =
      some (.ok (.ok (some (exSingleData.enrich exResult5))),
        Cache.insert emptyCache 5 (some (exSingleData.enrich exResult5)), opTrace 2) :=
  ⟨(C3_amended_no_cancellation 5 emptyCache none (.ok exSingleData) 1
      (fun _ => true) (fun _ => false)).1,
    (C3_amended_no_cancellation 5 emptyCache none (.ok exSingleData) 1
      (fun _ => true) (fun _ => false)).2
      (Cache.insert emptyCache 5 (some (exSingleData.enrich exResult5)))
      (.ok (some (exSingleData.enrich exResult5))) rfl⟩

/-- C4 is false on the code: a two-iteration wait produces two pump drives
(second conjunct) with no release of the pump lock between them (first
conjunct) — the `MutexGuard` taken before the loop (`workshop.rs` line 135)
is dropped only when the operation returns (third conjunct: the only release
is the final event). -/
theorem C4_counterexample :
    relBetween (opTrace 2) false = false ∧
    (opTrace 2).count Event.runCallbacks = 2 ∧
    (opTrace 2).count Event.releasePumpLock = 1 ∧
    (opTrace 2).getLast? = some Event.releasePumpLock := by
  decide

/-- C4 (amended): the pump-handle lock is acquired exactly once, before the
wait loop, and released exactly once, when the operation returns — after the
last iteration; in any wait of two or more iterations no release separates
consecutive pump drives, so the lock is held across the whole wait loop
(sleeps included) and concurrent waiters cannot interleave pump-driving. -/
theorem C4_amended_lock_held_whole_loop (n : Nat) :
    (opTrace n).head? = some Event.acquirePumpLock ∧
    (opTrace n).getLast? = some Event.releasePumpLock ∧
    (opTrace n).count Event.acquirePumpLock = 1 ∧
    (opTrace n).count Event.releasePumpLock = 1 ∧
    (opTrace n).count Event.runCallbacks = n ∧
    (2 ≤ n → relBetween (opTrace n) false = false) :=
  ⟨opTrace_head n, opTrace_last n, opTrace_count_acquire n, opTrace_count_release n,
    opTrace_count_run n, fun h => relBetween_opTrace_two n h⟩

/-- Witness for the amended C4 at a three-iteration wait. -/
theorem C4_amended_witness :
    (opTrace 3).head? = some Event.acquirePumpLock ∧
    (opTrace 3).getLast? = some Event.releasePumpLock ∧
    (opTrace 3).count Event.acquirePumpLock = 1 ∧
    (opTrace 3).count Event.releasePumpLock = 1 ∧
    (opTrace 3).count Event.runCallbacks = 3 ∧
    relBetween (opTrace 3) false = false :=
  ⟨(C4_amended_lock_held_whole_loop 3).1, (C4_amended_lock_held_whole_loop 3).2.1,
    (C4_amended_lock_held_whole_loop 3).2.2.1, (C4_amended_lock_held_whole_loop 3).2.2.2.1,
    (C4_amended_lock_held_whole_loop 3).2.2.2.2.1,
    (C4_amended_lock_held_whole_loop 3).2.2.2.2.2 (by decide)⟩

/-- C5: when the SDK responds successfully to `get_item`: zero total results
inserts the `None` "known absent" marker for the requested id into the cache
and returns `Ok(None)`; a returned match is enriched with the preview URL and
a subscription count defaulting to zero when the statistic is absent, is
inserted into the cache as `Some(record)`, and is returned as
`Ok(Some(record))`. -/
theorem C5_getItem_semantics (itemId : PublishedFileId) (cache : Cache)
    (data : SingleData) (fireAfter : Nat) (cancelled : Nat → Bool) :
    (data.totalResults = 0 →
      getItemRun itemId cache none (.ok data) fireAfter cancelled =
        some (.ok (.ok none), cache.insert itemId none, opTrace (fireAfter + 1))) ∧
    (∀ r : QueryResult, data.totalResults ≠ 0 → data.get0 = some r →
      (data.enrich r).previewUrl = data.previewUrl0 ∧
      (data.enrich r).subscriptions = data.subscriptions0.getD 0 ∧
      (data.subscriptions0 = none → (data.enrich r).subscriptions = 0) ∧
      getItemRun itemId cache none (.ok data) fireAfter cancelled =
        some (.ok (.ok (some (data.enrich r))),
          cache.insert (data.enrich r).id (some (data.enrich r)),
          opTrace (fireAfter + 1))) := by
  constructor
  · intro h0
    simp [getItemRun, getItemCallback, h0, waitIters_driveSchedule]
  · intro r h0 hg
    refine ⟨rfl, rfl, ?_, ?_⟩
    · intro habs
      show data.subscriptions0.getD 0 = 0
      rw [habs]
      rfl
    · simp [getItemRun, getItemCallback, h0, hg, waitIters_driveSchedule]

/-- Witness for C5: the absent case at identifier 7 and the present case at
identifier 5 (whose statistic is present). -/
theorem C5_witness :
    getItemRun 7 emptyCache none (.ok exAbsentData) 0 (fun _ => false) =
      some (.ok (.ok none), Cache.insert emptyCache 7 none, opTrace 1) ∧
    getItemRun 5 emptyCache none (.ok exSingleData) 0 (fun _ => false) =
      some (.ok (.ok (some (exSingleData.enrich exResult5))),
        Cache.insert emptyCache (exSingleData.enrich exResult5).id
          (some (exSingleData.enrich exResult5)), opTrace 1) :=
  ⟨(C5_getItem_semantics 7 emptyCache exAbsentData 0 (fun _ => false)).1 rfl,
    ((C5_getItem_semantics 5 emptyCache exSingleData 0 (fun _ => false)).2
      exResult5 (by decide) rfl).2.2.2⟩

/-- C6: for a drive schedule whose completion callback fires during some pump
drive, the pending-result slot is written exactly once, the wait loop
terminates — one iteration per drive up to and including the firing one —
with the slot's value, and `get_item` returns exactly that value to its
caller. -/
theorem C6_wait_terminates_with_slot (fireAfter : Nat) (itemId : PublishedFileId)
    (cache : Cache) (sdkResult : Except SteamError SingleData) (cancelled : Nat → Bool) :
    (∀ v : Except SteamError (Option WorkshopItem),
      (driveSchedule fireAfter v).filterMap id = [v] ∧
      slotAfter (driveSchedule fireAfter v) = some v ∧
      waitIters (driveSchedule fireAfter v) = some (fireAfter + 1, v)) ∧
    (∀ cache2 v, getItemCallback itemId cache sdkResult = some (cache2, v) →
      getItemRun itemId cache none sdkResult fireAfter cancelled =
        some (.ok v, cache2, opTrace (fireAfter + 1))) := by
  constructor
  · intro v
    exact ⟨driveSchedule_writes_once fireAfter v, slotAfter_driveSchedule fireAfter v,
      waitIters_driveSchedule fireAfter v⟩
  · intro cache2 v hcb
    simp only [getItemRun, hcb, waitIters_driveSchedule]

/-- Witness for C6: a callback firing during the third drive. -/
theorem C6_witness :
    (driveSchedule 2 (Except.ok (some (exSingleData.enrich exResult5)) :
      Except SteamError (Option WorkshopItem))).filterMap id =
      [Except.ok (some (exSingleData.enrich exResult5))] ∧
    getItemRun 5 emptyCache none (.ok exSingleData) 2 (fun _ => false) =
      some (.ok (.ok (some (exSingleData.enrich exResult5))),
        Cache.insert emptyCache 5 (some (exSingleData.enrich exResult5)), opTrace 3) :=
  ⟨((C6_wait_terminates_with_slot 2 5 emptyCache (.ok exSingleData) (fun _ => false)).1
      (.ok (some (exSingleData.enrich exResult5)))).1,
    (C6_wait_terminates_with_slot 2 5 emptyCache (.ok exSingleData) (fun _ => false)).2
      (Cache.insert emptyCache 5 (some (exSingleData.enrich exResult5)))
      (.ok (some (exSingleData.enrich exResult5))) rfl⟩

/-- C7: whenever the SDK reports a failure for an in-flight query, each of the
three operations (`get_item`, `get_items`, `query`) surfaces the error to the
caller verbatim as the typed inner error, and the cache is returned completely
unchanged — no entry is inserted or overwritten. -/
theorem C7_sdk_failure_propagates (itemId : PublishedFileId)
    (ids : List PublishedFileId) (accountId page : Nat) (cache : Cache)
    (e : SteamError) (fireAfter : Nat) (cancelled : Nat → Bool) (hne : ids ≠ []) :
    getItemRun itemId cache none (.error e) fireAfter cancelled =
      some (.ok (.error e), cache, opTrace (fireAfter + 1)) ∧
    getItemsRun ids cache (.error e) fireAfter cancelled =
      some (.ok (.error e), cache, opTrace (fireAfter + 1)) ∧
    queryRun accountId page cache none (.error e) fireAfter cancelled =
      some (.ok (.error e), cache, opTrace (fireAfter + 1)) := by
  have hconstruct : queryItemsConstruct ids = none := by
    cases ids with
    | nil => exact absurd rfl hne
    | cons a l => rfl
  refine ⟨?_, ?_, ?_⟩
  · simp [getItemRun, getItemCallback, waitIters_driveSchedule]
  · simp [getItemsRun, getItemsCallback, hconstruct, waitIters_driveSchedule]
  · simp [queryRun, queryCallback, waitIters_driveSchedule]

/-- Witness for C7 at a concrete failing batch and page. -/
theorem C7_witness :
    getItemRun 5 emptyCache none (.error (SteamError.code 9)) 1 (fun _ => false) =
      some (.ok (.error (SteamError.code 9)), emptyCache, opTrace 2) ∧
    getItemsRun [10, 20] emptyCache (.error (SteamError.code 9)) 1 (fun _ => false) =
      some (.ok (.error (SteamError.code 9)), emptyCache, opTrace 2) ∧
    queryRun 77 1 emptyCache none (.error (SteamError.code 9)) 1 (fun _ => false) =
      some (.ok (.error (SteamError.code 9)), emptyCache, opTrace 2) :=
  C7_sdk_failure_propagates 5 [10, 20] 77 1 emptyCache (SteamError.code 9) 1
    (fun _ => false) (by simp)

/-- C8: `get_items` with an empty identifier list fails at request
construction and returns the construction error immediately: the wait loop is
never entered and the pump never driven (the event trace is empty — no lock
acquisition, no `run_callbacks`) and the cache is returned untouched,
regardless of any SDK behaviour. -/
theorem C8_empty_batch_rejected (cache : Cache)
    (sdkResult : Except SteamError QueryData)
    (fireAfter : Nat) (cancelled : Nat → Bool) :
    getItemsRun [] cache sdkResult fireAfter cancelled =
      some (.error CreateQueryError.mk, cache, ([] : List Event)) := rfl

/-- C9: every successful `query` (browse) call issues the
own-published-catalog request — the authenticated account, `Published` list,
ready-to-use items, newest-updated-first order, the gmod consumer app id, the
given page, with the fixed `"dupe"` tag excluded — and, provided the SDK
honours the exclusion (no response entry tagged `"dupe"`), returns one
enriched item per response entry in stream order, none of them tagged
`"dupe"`, each inserted into the cache as a `Some` record. -/
theorem C9_browse_semantics (accountId page : Nat) (cache : Cache)
    (data : BrowseData) (fireAfter : Nat) (cancelled : Nat → Bool)
    (hclean : ∀ r ∈ data.entries, "dupe" ∉ r.tags) :
    (browseRequest accountId page).accountId = accountId ∧
    (browseRequest accountId page).list = UserList.Published ∧
    (browseRequest accountId page).ugcType = UGCType.ItemsReadyToUse ∧
    (browseRequest accountId page).order = UserListOrder.LastUpdatedDesc ∧
    (browseRequest accountId page).appIds = AppIDs.consumer APP_GMOD ∧
    (browseRequest accountId page).page = page ∧
    (browseRequest accountId page).excludedTags = ["dupe"] ∧
    ∃ items cache2,
      queryRun accountId page cache none (.ok data) fireAfter cancelled =
        some (.ok (.ok (data.totalResults, items)), cache2, opTrace (fireAfter + 1)) ∧
      items.length = data.entries.length ∧
      (∀ (j : Nat) (r : QueryResult), data.entries[j]? = some r →
        items[j]? = some (data.enrich j r)) ∧
      (∀ item ∈ items, "dupe" ∉ item.tags) ∧
      (∀ item ∈ items, ∃ it2, Cache.lookup cache2 item.id = some (some it2)) := by
  refine ⟨rfl, rfl, rfl, rfl, rfl, rfl, rfl,
    (browseMap data data.entries 0 cache).1, (browseMap data data.entries 0 cache).2,
    ?_, ?_, ?_, ?_, ?_⟩
  · simp only [queryRun, queryCallback, waitIters_driveSchedule]
  · exact browseMap_length data data.entries 0 cache
  · intro j r hr
    have hj := browseMap_get data data.entries 0 cache j r hr
    simpa using hj
  · exact browseMap_tags data "dupe" data.entries 0 cache hclean
  · exact browseMap_cached data data.entries 0 cache

/-- Witness for C9 on a two-result clean browse page. -/
theorem C9_witness :
    (browseRequest 77 1).list = UserList.Published ∧
    (browseRequest 77 1).excludedTags = ["dupe"] ∧
    ∃ items cache2,
      queryRun 77 1 emptyCache none (.ok exBrowseData) 0 (fun _ => false) =
        some (.ok (.ok (exBrowseData.totalResults, items)), cache2, opTrace 1) ∧
      (∀ item ∈ items, "dupe" ∉ item.tags) ∧
      (∀ item ∈ items, ∃ it2, Cache.lookup cache2 item.id = some (some it2)) := by
  have h := C9_browse_semantics 77 1 emptyCache exBrowseData 0 (fun _ => false)
    (by intro r hr; fin_cases hr <;> decide)
  obtain ⟨items, cache2, h1, _, _, h4, h5⟩ := h.2.2.2.2.2.2.2
  exact ⟨h.2.1, h.2.2.2.2.2.2.1, items, cache2, h1, h4, h5⟩

/-- C10: under the SDK response contract that the `iter_maybe` stream holds
exactly one entry per requested identifier, the unchecked
`ids_ref.nth(0).unwrap()` in the absent branch of `get_items` never panics
(first conjunct: the callback always produces a value); without that
contract the operation panics rather than returning an error (second
conjunct: two absent markers against a one-element request make the callback
panic — `none`). -/
theorem C10_cursor_never_exhausted :
    (∀ (data : QueryData) (ids : List PublishedFileId) (cache : Cache),
      data.entries.length = ids.length →
      (getItemsCallback ids cache (.ok data)).isSome = true) ∧
    getItemsCallback [10] emptyCache (.ok overflowData) = none := by
  constructor
  · intro data ids cache hlen
    have hsome := reconcileGo_isSome data data.entries 0 ids cache (le_of_eq hlen)
    simp only [getItemsCallback]
    cases hrec : reconcileGo data data.entries 0 ids cache with
    | none => rw [hrec] at hsome; simp at hsome
    | some p => cases p; simp
  · rfl

/-- Witness for C10 on a length-matched batch. -/
theorem C10_witness :
    (getItemsCallback [10, 20, 30] emptyCache (.ok exQueryData)).isSome = true ∧
    getItemsCallback [10] emptyCache (.ok overflowData) = none :=
  ⟨C10_cursor_never_exhausted.1 exQueryData [10, 20, 30] emptyCache rfl,
    C10_cursor_never_exhausted.2⟩
